import Mathlib

/-!
Verification of the go-errors core described by this documentation
repository: the Result tuple type, the error normalizer, and the three
wrapper functions goSync, go and goFetch.  The repository ships only the
documentation of the library, not its implementation, so the definitions
below are modelled from the specification text and settle the claims
against that model.
-/

/-- Modelled from the spec: a closed variant of JavaScript runtime values
that can be thrown, rejected with, returned, or stored in a Result slot.
Plain objects and arrays live in a store of nodes so that self-referential
structures are representable; the constructor ref points into the store. -/
inductive JSVal where
  | nullV : JSVal
  | undef : JSVal
  | boolV (b : Bool) : JSVal
  | numV (n : Int) : JSVal
  | strV (s : String) : JSVal
  | symV (description : String) : JSVal
  | bigintV (n : Int) : JSVal
  | funcV (src : String) : JSVal
  | dateV (iso : String) : JSVal
  | regexV (pattern : String) (flags : String) : JSVal
  | errV (name : String) (message : String) (extra : List (String × JSVal)) : JSVal
  | respV (status : Nat) (statusText : String) : JSVal
  | ref (addr : Nat) : JSVal

/-- Modelled from the spec: a heap node for a plain data structure, either
a mapping with named fields or a sequence of elements.  Field and element
values may be further references, so cycles can occur. -/
inductive JNode where
  | jobj (fields : List (String × JSVal)) : JNode
  | jarr (elems : List JSVal) : JNode

/-- The address a reference value points at, if the value is a reference. -/
def refAddr? : JSVal → Option Nat
  | JSVal.ref a => some a
  | _ => none

/-- The child reference addresses of a heap node. -/
def childRefs : JNode → List Nat
  | JNode.jobj fields => (fields.map Prod.snd).filterMap refAddr?
  | JNode.jarr elems => elems.filterMap refAddr?

/-- JSON-style quoting of a string. -/
def jsonQuote (s : String) : String := "\"" ++ s ++ "\""

/-- Assemble a serialized JSON object from field names and serialized parts. -/
def jsonObj (names : List String) (parts : List String) : String :=
  "\x7b" ++ String.intercalate "," (List.zipWith (fun n p => jsonQuote n ++ ":" ++ p) names parts) ++ "\x7d"

/-- Assemble a serialized JSON array from serialized parts. -/
def jsonArr (parts : List String) : String :=
  "[" ++ String.intercalate "," parts ++ "]"

/-- Sequence the serialization of the head of a list with the serialization
of its tail, propagating the first failure. -/
def combineHead (x : Except Unit String) (y : Except Unit (List String)) :
    Except Unit (List String) :=
  match x with
  | Except.error e => Except.error e
  | Except.ok s =>
    match y with
    | Except.error e => Except.error e
    | Except.ok ss => Except.ok (s :: ss)

/-- Modelled from the spec: JSON-style serialization of a list of values,
with detection of self-referential structures.  The list seen holds the
addresses of the containers currently being serialized on the path from
the root; meeting one of them again is the cyclic-structure failure.  The
fuel argument bounds the recursion and decreases at every step. -/
def serializeList (store : List JNode) : Nat → List Nat → List JSVal → Except Unit (List String)
  | _, _, [] => Except.ok []
  | 0, _, _ :: _ => Except.error ()
  | Nat.succ f, seen, v :: rest =>
    combineHead
      (match v with
       | JSVal.ref a =>
         if a ∈ seen then Except.error () else
         match store.get? a with
         | none => Except.ok "null"
         | some (JNode.jobj fields) =>
           match serializeList store f (a :: seen) (fields.map Prod.snd) with
           | Except.error e => Except.error e
           | Except.ok parts => Except.ok (jsonObj (fields.map Prod.fst) parts)
         | some (JNode.jarr elems) =>
           match serializeList store f (a :: seen) elems with
           | Except.error e => Except.error e
           | Except.ok parts => Except.ok (jsonArr parts)
       | JSVal.strV s => Except.ok (jsonQuote s)
       | JSVal.numV n => Except.ok (toString n)
       | JSVal.boolV b => Except.ok (cond b "true" "false")
       | JSVal.nullV => Except.ok "null"
       | _ => Except.ok "null")
      (serializeList store f seen rest)

/-- The head expression serializeList uses for a reference value, named
so that proofs can rewrite it without touching bound match variables. -/
def serializeRef (store : List JNode) (f : Nat) (seen : List Nat) (a : Nat) :
    Except Unit String :=
  if a ∈ seen then Except.error () else
  match store.get? a with
  | none => Except.ok "null"
  | some (JNode.jobj fields) =>
    match serializeList store f (a :: seen) (fields.map Prod.snd) with
    | Except.error e => Except.error e
    | Except.ok parts => Except.ok (jsonObj (fields.map Prod.fst) parts)
  | some (JNode.jarr elems) =>
    match serializeList store f (a :: seen) elems with
    | Except.error e => Except.error e
    | Except.ok parts => Except.ok (jsonArr parts)

/-- Unfolding the serialization of a reference at the head of a list. -/
theorem serializeList_ref_cons (store : List JNode) (f : Nat) (seen : List Nat)
    (a : Nat) (rest : List JSVal) :
    serializeList store (Nat.succ f) seen (JSVal.ref a :: rest) =
      combineHead (serializeRef store f seen a) (serializeList store f seen rest) := rfl

/-- Unfolding a reference head when the node is an object not yet seen. -/
theorem serializeRef_obj {store : List JNode} {a : Nat}
    {fields : List (String × JSVal)} (f : Nat) (seen : List Nat)
    (hseen : a ∉ seen) (hget : store.get? a = some (JNode.jobj fields)) :
    serializeRef store f seen a =
      match serializeList store f (a :: seen) (fields.map Prod.snd) with
      | Except.error e => Except.error e
      | Except.ok parts => Except.ok (jsonObj (fields.map Prod.fst) parts) := by
  unfold serializeRef
  rw [if_neg hseen, hget]

/-- Unfolding a reference head when the node is an array not yet seen. -/
theorem serializeRef_arr {store : List JNode} {a : Nat}
    {elems : List JSVal} (f : Nat) (seen : List Nat)
    (hseen : a ∉ seen) (hget : store.get? a = some (JNode.jarr elems)) :
    serializeRef store f seen a =
      match serializeList store f (a :: seen) elems with
      | Except.error e => Except.error e
      | Except.ok parts => Except.ok (jsonArr parts) := by
  unfold serializeRef
  rw [if_neg hseen, hget]

/-- Serialize one value against a store with a given amount of fuel. -/
def serializeVal (store : List JNode) (fuel : Nat) (v : JSVal) : Except Unit String :=
  match serializeList store fuel [] [v] with
  | Except.ok (s :: _) => Except.ok s
  | Except.ok [] => Except.error ()
  | Except.error e => Except.error e

/-- Weight of a node, used to compute an adequate fuel bound. -/
def nodeWeight : JNode → Nat
  | JNode.jobj fields => fields.length + 1
  | JNode.jarr elems => elems.length + 1

/-- A fuel bound that is generous for the acyclic stores of interest. -/
def fuelFor (store : List JNode) : Nat :=
  ((store.map nodeWeight).sum + 2) * (store.length + 2)

/-- Modelled from the spec: the fixed sentinel message used when the
serialization of a thrown structure fails because it is self-referential. -/
def circularSentinel : String := "Circular structure detected"

/-- The fields copied from a plain data structure onto its normalized
error: object fields verbatim, array elements under their index names. -/
def fieldsOfNode (store : List JNode) (a : Nat) : List (String × JSVal) :=
  match store.get? a with
  | some (JNode.jobj fields) => fields
  | some (JNode.jarr elems) => elems.enum.map (fun p => (toString p.1, p.2))
  | none => []

/-- Modelled from the spec: the Error Normalizer.  Maps an arbitrary
captured value to an error value, by the ordered rules of the spec:
already-an-error is returned unchanged; a string becomes the message; a
regular expression uses its canonical textual form; a plain data structure
is serialized JSON-style with its fields copied onto the error, the fixed
sentinel being used when serialization fails on a self-referential
structure; symbols, big integers, functions and dates use their canonical
string forms; everything else falls back to its default string form.  The
function is total: it never throws. -/
def normalizeError (store : List JNode) : JSVal → JSVal
  | JSVal.errV n m extra => JSVal.errV n m extra
  | JSVal.strV s => JSVal.errV "Error" s []
  | JSVal.regexV p fl => JSVal.errV "Error" ("/" ++ p ++ "/" ++ fl) []
  | JSVal.ref a =>
    match serializeVal store (fuelFor store) (JSVal.ref a) with
    | Except.ok s => JSVal.errV "Error" s (fieldsOfNode store a)
    | Except.error _ => JSVal.errV "Error" circularSentinel []
  | JSVal.symV d => JSVal.errV "Error" ("Symbol(" ++ d ++ ")") []
  | JSVal.bigintV n => JSVal.errV "Error" (toString n) []
  | JSVal.funcV src => JSVal.errV "Error" src []
  | JSVal.dateV iso => JSVal.errV "Error" iso []
  | JSVal.numV n => JSVal.errV "Error" (toString n) []
  | JSVal.boolV b => JSVal.errV "Error" (cond b "true" "false") []
  | JSVal.nullV => JSVal.errV "Error" "null" []
  | JSVal.undef => JSVal.errV "Error" "undefined" []
  | JSVal.respV _ _ => JSVal.errV "Error" "[object Response]" []

/-- The is-an-error capability check: true exactly on error values. -/
def isErrorVal : JSVal → Bool
  | JSVal.errV _ _ _ => true
  | _ => false

/-- Modelled from the spec: the Synchronous Wrapper goSync.  A thunk that
either returns a value or throws one is run under a capture boundary; a
normal return v yields the pair (v, null) and a thrown value yields
(null, normalizeError of it).  The result is the two-slot Result tuple. -/
def goSync (store : List JNode) (fn : Unit → Except JSVal JSVal) : JSVal × JSVal :=
  match fn () with
  | Except.ok x => (x, JSVal.nullV)
  | Except.error v => (JSVal.nullV, normalizeError store v)

/-- Every result of the normalizer is an error value of some name,
message and extra-field list. -/
theorem normalizeError_shape (store : List JNode) (v : JSVal) :
    ∃ n m extra, normalizeError store v = JSVal.errV n m extra := by
  cases v
  case ref a =>
    cases hs : serializeVal store (fuelFor store) (JSVal.ref a) with
    | ok s => exact ⟨"Error", s, fieldsOfNode store a, by simp [normalizeError, hs]⟩
    | error e => exact ⟨"Error", circularSentinel, [], by simp [normalizeError, hs]⟩
  all_goals exact ⟨_, _, _, rfl⟩

/-- Every result of the normalizer satisfies the is-an-error check. -/
theorem normalizeError_is_error (store : List JNode) (v : JSVal) :
    isErrorVal (normalizeError store v) = true := by
  obtain ⟨n, m, extra, h⟩ := normalizeError_shape store v
  rw [h]
  rfl

/-- C1: for every zero-argument function fn that returns normally with
value x, goSync fn returns the pair (x, null); and for every fn that
throws a value v, goSync fn returns (null, normalizeError v). -/
theorem goSync_spec (store : List JNode) (fn : Unit → Except JSVal JSVal)
    (x v : JSVal) :
    (fn () = Except.ok x → goSync store fn = (x, JSVal.nullV)) ∧
    (fn () = Except.error v → goSync store fn = (JSVal.nullV, normalizeError store v)) := by
  constructor
  · intro h
    simp [goSync, h]
  · intro h
    simp [goSync, h]

/-- Witness for C1 at concrete inputs: a thunk returning 42 and a thunk
throwing the string boom. -/
theorem goSync_spec_witness :
    goSync [] (fun _ => Except.ok (JSVal.numV 42)) = (JSVal.numV 42, JSVal.nullV) ∧
    goSync [] (fun _ => Except.error (JSVal.strV "boom")) =
      (JSVal.nullV, normalizeError [] (JSVal.strV "boom")) := by
  constructor
  · exact (goSync_spec [] (fun _ => Except.ok (JSVal.numV 42)) (JSVal.numV 42)
      (JSVal.strV "x")).1 rfl
  · exact (goSync_spec [] (fun _ => Except.error (JSVal.strV "boom")) (JSVal.numV 42)
      (JSVal.strV "boom")).2 rfl

/-- Modelled from the spec: the Asynchronous Wrapper go.  A settled
promise is either resolved with a value or rejected with a reason; the
wrapper awaits it and returns a promise of a Result, itself never
rejected, so the outer Except is always ok. -/
def go (store : List JNode) (p : Except JSVal JSVal) : Except JSVal (JSVal × JSVal) :=
  Except.ok
    (match p with
     | Except.ok v => (v, JSVal.nullV)
     | Except.error r => (JSVal.nullV, normalizeError store r))

/-- C2: for every promise p, the promise returned by go p never rejects;
if p resolves to v the result is (v, null), and if p rejects with reason
r the result is (null, normalizeError r). -/
theorem go_spec (store : List JNode) (p : Except JSVal JSVal) (v r : JSVal) :
    (go store p).isOk = true ∧
    (p = Except.ok v → go store p = Except.ok (v, JSVal.nullV)) ∧
    (p = Except.error r → go store p = Except.ok (JSVal.nullV, normalizeError store r)) := by
  refine ⟨rfl, ?_, ?_⟩
  · intro h
    simp [go, h]
  · intro h
    simp [go, h]

/-- Witness for C2 at concrete promises: one resolving to 7 and one
rejecting with the string fail. -/
theorem go_spec_witness :
    go [] (Except.ok (JSVal.numV 7)) = Except.ok (JSVal.numV 7, JSVal.nullV) ∧
    go [] (Except.error (JSVal.strV "fail")) =
      Except.ok (JSVal.nullV, normalizeError [] (JSVal.strV "fail")) := by
  constructor
  · exact (go_spec [] (Except.ok (JSVal.numV 7)) (JSVal.numV 7) JSVal.nullV).2.1 rfl
  · exact (go_spec [] (Except.error (JSVal.strV "fail")) JSVal.nullV
      (JSVal.strV "fail")).2.2 rfl

/-- C3: the Error Normalizer is total.  It is a function defined on the
whole closed variant of thrown values, including strings, numbers,
booleans, plain objects, arrays, references to cyclic structures,
symbols, bigints, functions, dates, regular expressions and existing
errors, and its result always satisfies the is-an-error capability. -/
theorem normalizeError_total (store : List JNode) (v : JSVal) :
    isErrorVal (normalizeError store v) = true :=
  normalizeError_is_error store v

/-- C6: the Error Normalizer is idempotent.  An input that already
satisfies the is-an-error capability is returned unchanged, with its
subclass name and all extra fields preserved, and normalizing twice is
the same as normalizing once for every input. -/
theorem normalizeError_idem (store : List JNode) (n m : String)
    (extra : List (String × JSVal)) (y : JSVal) :
    normalizeError store (JSVal.errV n m extra) = JSVal.errV n m extra ∧
    normalizeError store (normalizeError store y) = normalizeError store y := by
  refine ⟨rfl, ?_⟩
  obtain ⟨n, m, extra, h⟩ := normalizeError_shape store y
  rw [h]
  rfl

/-- Modelled from the spec: the per-call configuration of the HTTP
Wrapper, with the two optional hooks.  The response transformer may
itself throw, which the Except models; the error transformer shapes the
raw error into the failure payload. -/
structure GoFetchOptions where
  responseTransformer : Option (JSVal → Except JSVal JSVal)
  errorTransformer : Option (JSVal → JSVal)

/-- Modelled from the spec: the HTTP response produced by the injected
transport, carrying a status code, a status text and an already-parsed
body value. -/
structure MockResponse where
  status : Nat
  statusText : String
  body : JSVal

/-- A status code indicates success when it lies in the 2xx range. -/
def isOkStatus (s : Nat) : Bool := decide (200 ≤ s) && decide (s < 300)

/-- The raw-error value a non-success response contributes: the response
object itself, inspectable for its status. -/
def respToVal (r : MockResponse) : JSVal := JSVal.respV r.status r.statusText

/-- Modelled from the spec: the error path of the HTTP Wrapper.  With an
error transformer the raw error is passed to it and its result is used
verbatim; without one the raw error goes through the Error Normalizer. -/
def errorPath (store : List JNode) (opts : GoFetchOptions) (raw : JSVal) : JSVal :=
  match opts.errorTransformer with
  | some f => f raw
  | none => normalizeError store raw

/-- Modelled from the spec: the HTTP Wrapper goFetch.  The injected
transport either throws (network failure) or yields a response.  A thrown
transport error and a non-success status are raw errors for the error
path; on a success status the body is passed through the optional
response transformer, whose own throw is captured and sent down the
error path as well.  The returned promise always resolves to a Result. -/
def goFetch (store : List JNode) (transport : Except JSVal MockResponse)
    (opts : GoFetchOptions) : Except JSVal (JSVal × JSVal) :=
  Except.ok
    (match transport with
     | Except.error e => (JSVal.nullV, errorPath store opts e)
     | Except.ok r =>
       if isOkStatus r.status then
         match opts.responseTransformer with
         | none => (r.body, JSVal.nullV)
         | some t =>
           match t r.body with
           | Except.ok v => (v, JSVal.nullV)
           | Except.error thrown => (JSVal.nullV, errorPath store opts thrown)
       else (JSVal.nullV, errorPath store opts (respToVal r)))

/-- C8: for a non-success response with an error transformer supplied,
the raw error handed to the transformer is the response itself, carrying
its status, and the transformer return value lands verbatim in the error
slot with no generic normalization; without a transformer the raw error
goes through the Error Normalizer instead. -/
theorem goFetch_error_transformer (store : List JNode) (r : MockResponse)
    (opts : GoFetchOptions) (f : JSVal → JSVal)
    (hstatus : isOkStatus r.status = false) :
    (opts.errorTransformer = some f →
      goFetch store (Except.ok r) opts =
        Except.ok (JSVal.nullV, f (JSVal.respV r.status r.statusText))) ∧
    (opts.errorTransformer = none →
      goFetch store (Except.ok r) opts =
        Except.ok (JSVal.nullV, normalizeError store (JSVal.respV r.status r.statusText))) := by
  constructor
  · intro h
    simp [goFetch, hstatus, errorPath, h, respToVal]
  · intro h
    simp [goFetch, hstatus, errorPath, h, respToVal]

/-- Witness for C8 at a concrete 404 response, with a transformer that
inspects the status and builds an HTTP-coded string, and without one. -/
theorem goFetch_error_transformer_witness :
    goFetch [] (Except.ok (MockResponse.mk 404 "Not Found" JSVal.nullV))
        (GoFetchOptions.mk none (some (fun e =>
          match e with
          | JSVal.respV st _ => JSVal.strV ("HTTP_" ++ toString st)
          | _ => JSVal.strV "UNKNOWN"))) =
      Except.ok (JSVal.nullV, JSVal.strV "HTTP_404") ∧
    goFetch [] (Except.ok (MockResponse.mk 404 "Not Found" JSVal.nullV))
        (GoFetchOptions.mk none none) =
      Except.ok (JSVal.nullV, JSVal.errV "Error" "[object Response]" []) := by
  constructor
  · exact (goFetch_error_transformer [] (MockResponse.mk 404 "Not Found" JSVal.nullV)
      (GoFetchOptions.mk none (some (fun e =>
        match e with
        | JSVal.respV st _ => JSVal.strV ("HTTP_" ++ toString st)
        | _ => JSVal.strV "UNKNOWN")))
      (fun e =>
        match e with
        | JSVal.respV st _ => JSVal.strV ("HTTP_" ++ toString st)
        | _ => JSVal.strV "UNKNOWN") (by decide)).1 rfl
  · exact (goFetch_error_transformer [] (MockResponse.mk 404 "Not Found" JSVal.nullV)
      (GoFetchOptions.mk none none) (fun _ => JSVal.nullV) (by decide)).2 rfl

/-- C9: the promise returned by goFetch always resolves to a Result, and
a response transformer that throws value v on a success-status response
is captured inside the wrapper: the result is a failure whose payload is
v normalized, or v put through the error transformer when one is
supplied. -/
theorem goFetch_never_rejects (store : List JNode)
    (transport : Except JSVal MockResponse) (opts : GoFetchOptions)
    (r : MockResponse) (t : JSVal → Except JSVal JSVal) (v : JSVal) :
    (goFetch store transport opts).isOk = true ∧
    (transport = Except.ok r → isOkStatus r.status = true →
      opts.responseTransformer = some t → t r.body = Except.error v →
      ((opts.errorTransformer = none →
        goFetch store transport opts =
          Except.ok (JSVal.nullV, normalizeError store v)) ∧
       (∀ g, opts.errorTransformer = some g →
        goFetch store transport opts = Except.ok (JSVal.nullV, g v)))) := by
  refine ⟨rfl, ?_⟩
  intro htr hst hrt hthrow
  constructor
  · intro hnone
    simp [goFetch, htr, hst, hrt, hthrow, errorPath, hnone]
  · intro g hg
    simp [goFetch, htr, hst, hrt, hthrow, errorPath, hg]

/-- Witness for C9 at a concrete 200 response whose transformer throws
the string bad data, without and with an error transformer. -/
theorem goFetch_never_rejects_witness :
    goFetch [] (Except.ok (MockResponse.mk 200 "OK" (JSVal.numV 1)))
        (GoFetchOptions.mk (some (fun _ => Except.error (JSVal.strV "bad data"))) none) =
      Except.ok (JSVal.nullV, JSVal.errV "Error" "bad data" []) ∧
    goFetch [] (Except.ok (MockResponse.mk 200 "OK" (JSVal.numV 1)))
        (GoFetchOptions.mk (some (fun _ => Except.error (JSVal.strV "bad data")))
          (some (fun _ => JSVal.strV "shaped"))) =
      Except.ok (JSVal.nullV, JSVal.strV "shaped") := by
  constructor
  · exact ((goFetch_never_rejects [] (Except.ok (MockResponse.mk 200 "OK" (JSVal.numV 1)))
      (GoFetchOptions.mk (some (fun _ => Except.error (JSVal.strV "bad data"))) none)
      (MockResponse.mk 200 "OK" (JSVal.numV 1))
      (fun _ => Except.error (JSVal.strV "bad data"))
      (JSVal.strV "bad data")).2 rfl (by decide) rfl rfl).1 rfl
  · exact ((goFetch_never_rejects [] (Except.ok (MockResponse.mk 200 "OK" (JSVal.numV 1)))
      (GoFetchOptions.mk (some (fun _ => Except.error (JSVal.strV "bad data")))
        (some (fun _ => JSVal.strV "shaped")))
      (MockResponse.mk 200 "OK" (JSVal.numV 1))
      (fun _ => Except.error (JSVal.strV "bad data"))
      (JSVal.strV "bad data")).2 rfl (by decide) rfl rfl).2
      (fun _ => JSVal.strV "shaped") rfl

/-- C10: a success whose payload is null or undefined is reported with a
null-ish value slot together with a null error slot, so a null error slot
does not imply a populated value slot; only the error slot discriminates
success from failure. -/
theorem goFetch_null_success :
    goFetch [] (Except.ok (MockResponse.mk 200 "OK" JSVal.nullV))
        (GoFetchOptions.mk none none) = Except.ok (JSVal.nullV, JSVal.nullV) ∧
    goFetch [] (Except.ok (MockResponse.mk 204 "No Content" JSVal.undef))
        (GoFetchOptions.mk none none) = Except.ok (JSVal.undef, JSVal.nullV) := by
  constructor <;> rfl

/-- True exactly on the null marker. -/
def isNullVal : JSVal → Bool
  | JSVal.nullV => true
  | _ => false

/-- True when exactly one of the two Result slots is the null marker. -/
def exactlyOneNull (r : JSVal × JSVal) : Bool :=
  xor (isNullVal r.1) (isNullVal r.2)

/-- The amended slot invariant: the error slot is null (a success), or
the value slot is null and the error slot is an error value (a failure
through the Normalizer). -/
def slotInv (r : JSVal × JSVal) : Prop :=
  r.2 = JSVal.nullV ∨ (r.1 = JSVal.nullV ∧ isErrorVal r.2 = true)

/-- C7 counterexample: a wrapper-produced Result with both slots null.
The thunk succeeds with the value null, so goSync returns the pair
(null, null) and the exactly-one-slot-null invariant fails. -/
theorem result_one_null_cex :
    goSync [] (fun _ => Except.ok JSVal.nullV) = (JSVal.nullV, JSVal.nullV) ∧
    exactlyOneNull (goSync [] (fun _ => Except.ok JSVal.nullV)) = false := by
  constructor <;> rfl

/-- C7 amended: for every Result produced by any wrapper, goSync, go, or
goFetch with any options, the slots are never both populated: on success
the error slot is null and on failure the value slot is null.  For
goSync and go, whose failure payload always comes from the Error
Normalizer, the failure error slot is moreover a non-null error value;
the same holds for goFetch whenever no error transformer is supplied.
Only the never-both-null half of the original invariant fails, since a
success value may itself be null. -/
theorem result_slots_amended (store : List JNode)
    (fn : Unit → Except JSVal JSVal) (p : Except JSVal JSVal)
    (transport : Except JSVal MockResponse) (opts : GoFetchOptions) :
    slotInv (goSync store fn) ∧
    (∃ q, go store p = Except.ok q ∧ slotInv q) ∧
    (∃ q, goFetch store transport opts = Except.ok q ∧
      (q.1 = JSVal.nullV ∨ q.2 = JSVal.nullV)) ∧
    (opts.errorTransformer = none →
      ∃ q, goFetch store transport opts = Except.ok q ∧ slotInv q) := by
  refine ⟨?_, ?_, ?_, ?_⟩
  · cases h : fn () with
    | ok x => left; simp [goSync, h]
    | error v =>
      right
      refine ⟨by simp [goSync, h], ?_⟩
      simp [goSync, h, normalizeError_is_error]
  · cases p with
    | ok v => exact ⟨(v, JSVal.nullV), rfl, Or.inl rfl⟩
    | error r =>
      exact ⟨(JSVal.nullV, normalizeError store r), rfl,
        Or.inr ⟨rfl, normalizeError_is_error store r⟩⟩
  · cases transport with
    | error e =>
      exact ⟨(JSVal.nullV, errorPath store opts e), rfl, Or.inl rfl⟩
    | ok r =>
      by_cases hst : isOkStatus r.status = true
      · cases hrt : opts.responseTransformer with
        | none =>
          exact ⟨(r.body, JSVal.nullV), by simp [goFetch, hst, hrt], Or.inr rfl⟩
        | some t =>
          cases ht : t r.body with
          | ok v =>
            exact ⟨(v, JSVal.nullV), by simp [goFetch, hst, hrt, ht], Or.inr rfl⟩
          | error thrown =>
            exact ⟨(JSVal.nullV, errorPath store opts thrown),
              by simp [goFetch, hst, hrt, ht], Or.inl rfl⟩
      · exact ⟨(JSVal.nullV, errorPath store opts (respToVal r)),
          by simp [goFetch, hst], Or.inl rfl⟩
  · intro hnone
    cases transport with
    | error e =>
      exact ⟨(JSVal.nullV, errorPath store opts e), rfl,
        Or.inr ⟨rfl, by simp [errorPath, hnone, normalizeError_is_error]⟩⟩
    | ok r =>
      by_cases hst : isOkStatus r.status = true
      · cases hrt : opts.responseTransformer with
        | none =>
          exact ⟨(r.body, JSVal.nullV), by simp [goFetch, hst, hrt], Or.inl rfl⟩
        | some t =>
          cases ht : t r.body with
          | ok v =>
            exact ⟨(v, JSVal.nullV), by simp [goFetch, hst, hrt, ht], Or.inl rfl⟩
          | error thrown =>
            refine ⟨(JSVal.nullV, errorPath store opts thrown),
              by simp [goFetch, hst, hrt, ht], Or.inr ⟨rfl, ?_⟩⟩
            simp [errorPath, hnone, normalizeError_is_error]
      · refine ⟨(JSVal.nullV, errorPath store opts (respToVal r)),
          by simp [goFetch, hst], Or.inr ⟨rfl, ?_⟩⟩
        simp [errorPath, hnone, normalizeError_is_error]

/-- Witness for the amended C7 at concrete inputs: a throwing thunk, a
rejecting promise, and a 500 response both with an error transformer and
without one. -/
theorem result_slots_amended_witness :
    slotInv (goSync [] (fun _ => Except.error (JSVal.numV 3))) ∧
    (∃ q, go [] (Except.error (JSVal.strV "r")) = Except.ok q ∧ slotInv q) ∧
    (∃ q, goFetch [] (Except.ok (MockResponse.mk 500 "Server Error" JSVal.nullV))
      (GoFetchOptions.mk none (some (fun _ => JSVal.strV "shaped"))) = Except.ok q ∧
      (q.1 = JSVal.nullV ∨ q.2 = JSVal.nullV)) ∧
    (∃ q, goFetch [] (Except.ok (MockResponse.mk 500 "Server Error" JSVal.nullV))
      (GoFetchOptions.mk none none) = Except.ok q ∧ slotInv q) := by
  refine ⟨?_, ?_, ?_, ?_⟩
  · exact (result_slots_amended [] (fun _ => Except.error (JSVal.numV 3))
      (Except.error (JSVal.strV "r"))
      (Except.ok (MockResponse.mk 500 "Server Error" JSVal.nullV))
      (GoFetchOptions.mk none none)).1
  · exact (result_slots_amended [] (fun _ => Except.error (JSVal.numV 3))
      (Except.error (JSVal.strV "r"))
      (Except.ok (MockResponse.mk 500 "Server Error" JSVal.nullV))
      (GoFetchOptions.mk none none)).2.1
  · exact (result_slots_amended [] (fun _ => Except.error (JSVal.numV 3))
      (Except.error (JSVal.strV "r"))
      (Except.ok (MockResponse.mk 500 "Server Error" JSVal.nullV))
      (GoFetchOptions.mk none (some (fun _ => JSVal.strV "shaped")))).2.2.1
  · exact (result_slots_amended [] (fun _ => Except.error (JSVal.numV 3))
      (Except.error (JSVal.strV "r"))
      (Except.ok (MockResponse.mk 500 "Server Error" JSVal.nullV))
      (GoFetchOptions.mk none none)).2.2.2 rfl

/-- C5: for a thrown plain data structure with no cycle, for which the
JSON-style serialization succeeds, the normalized error message is that
serialization, and the original fields of the structure are copied onto
the normalized error: object fields verbatim, array elements under their
index names. -/
theorem normalizeError_plain_data (store : List JNode) (a : Nat) (s : String)
    (fields : List (String × JSVal)) (elems : List JSVal)
    (hser : serializeVal store (fuelFor store) (JSVal.ref a) = Except.ok s) :
    (store.get? a = some (JNode.jobj fields) →
      normalizeError store (JSVal.ref a) = JSVal.errV "Error" s fields) ∧
    (store.get? a = some (JNode.jarr elems) →
      normalizeError store (JSVal.ref a) =
        JSVal.errV "Error" s (elems.enum.map (fun p => (toString p.1, p.2)))) := by
  constructor
  · intro hnode
    simp only [normalizeError, hser, fieldsOfNode]
    rw [hnode]
  · intro hnode
    simp only [normalizeError, hser, fieldsOfNode]
    rw [hnode]

/-- Witness for C5 at a concrete thrown object with one field: the
message is its JSON serialization and the field is copied onto the
error. -/
theorem normalizeError_plain_data_witness :
    normalizeError [JNode.jobj [("code", JSVal.strV "NOT_FOUND")]] (JSVal.ref 0) =
      JSVal.errV "Error" "\x7b\"code\":\"NOT_FOUND\"\x7d"
        [("code", JSVal.strV "NOT_FOUND")] :=
  (normalizeError_plain_data [JNode.jobj [("code", JSVal.strV "NOT_FOUND")]] 0
    "\x7b\"code\":\"NOT_FOUND\"\x7d" [("code", JSVal.strV "NOT_FOUND")] [] rfl).1 rfl

/-- One containment step in the store: node a exists and one of its
fields or elements is a reference to node b. -/
def step (store : List JNode) (a b : Nat) : Bool :=
  match store.get? a with
  | some node => decide (b ∈ childRefs node)
  | none => false

/-- Transitive containment between store nodes: a chain of one or more
containment steps. -/
inductive StepChain (store : List JNode) : Nat → Nat → Prop where
  | single {a b : Nat} : step store a b = true → StepChain store a b
  | cons {a b c : Nat} : step store a b = true → StepChain store b c → StepChain store a c

/-- A self-referential container: a store node that directly or
transitively contains itself. -/
def SelfRef (store : List JNode) (a : Nat) : Prop := StepChain store a a

/-- Inversion of a successful head-and-tail serialization. -/
theorem combineHead_ok {x : Except Unit String} {y : Except Unit (List String)}
    {out : List String} (h : combineHead x y = Except.ok out) :
    ∃ s ss, x = Except.ok s ∧ y = Except.ok ss ∧ out = s :: ss := by
  cases x with
  | error e => simp [combineHead] at h
  | ok s =>
    cases y with
    | error e => simp [combineHead] at h
    | ok ss =>
      simp [combineHead] at h
      exact ⟨s, ss, rfl, rfl, h.symm⟩

/-- If the serialization of a list succeeds, the serialization of each of
its members succeeds as a singleton, with the same seen set. -/
theorem serializeList_mem_ok (store : List JNode) :
    ∀ (l : List JSVal) (f : Nat) (seen : List Nat) (out : List String),
      serializeList store f seen l = Except.ok out →
      ∀ v ∈ l, ∃ g s, serializeList store g seen [v] = Except.ok [s] := by
  intro l
  induction l with
  | nil =>
    intro f seen out h v hv
    cases hv
  | cons w rest ih =>
    intro f seen out h v hv
    cases f with
    | zero => simp [serializeList] at h
    | succ f =>
      simp only [serializeList] at h
      obtain ⟨s, ss, hhd, htl, hout⟩ := combineHead_ok h
      rcases List.mem_cons.mp hv with rfl | hv2
      · refine ⟨Nat.succ f, s, ?_⟩
        simp only [serializeList]
        rw [hhd]
        simp [combineHead]
      · exact ih f seen ss htl v hv2

/-- Inversion of one containment step: the parent node exists and one of
its child references is the target. -/
theorem step_inv {store : List JNode} {a b : Nat} (h : step store a b = true) :
    ∃ node, store.get? a = some node ∧ b ∈ childRefs node := by
  unfold step at h
  cases hget : store.get? a with
  | none => rw [hget] at h; cases h
  | some node =>
    rw [hget] at h
    exact ⟨node, rfl, of_decide_eq_true h⟩

/-- A child reference address of a node comes from a reference value among
its field values or elements. -/
theorem childRefs_mem {node : JNode} {b : Nat} (h : b ∈ childRefs node) :
    (∃ fields, node = JNode.jobj fields ∧ JSVal.ref b ∈ fields.map Prod.snd) ∨
    (∃ elems, node = JNode.jarr elems ∧ JSVal.ref b ∈ elems) := by
  cases node with
  | jobj fields =>
    left
    refine ⟨fields, rfl, ?_⟩
    simp only [childRefs] at h
    rcases List.mem_filterMap.mp h with ⟨v, hv, hr⟩
    cases v <;> simp [refAddr?] at hr
    exact hr ▸ hv
  | jarr elems =>
    right
    refine ⟨elems, rfl, ?_⟩
    simp only [childRefs] at h
    rcases List.mem_filterMap.mp h with ⟨v, hv, hr⟩
    cases v <;> simp [refAddr?] at hr
    exact hr ▸ hv

/-- If the serialization of a reference succeeds and the referenced node
contains a reference to b, then the serialization of b succeeds with the
parent address added to the seen set. -/
theorem serialize_step_ok {store : List JNode} {a b f : Nat}
    {seen : List Nat} {out : List String}
    (h : serializeList store f seen [JSVal.ref a] = Except.ok out)
    (hstep : step store a b = true) :
    ∃ g s, serializeList store g (a :: seen) [JSVal.ref b] = Except.ok [s] := by
  obtain ⟨node, hget, hmem⟩ := step_inv hstep
  cases f with
  | zero => simp [serializeList] at h
  | succ f =>
    rw [serializeList_ref_cons] at h
    obtain ⟨s, ss, hhd, htl, hout⟩ := combineHead_ok h
    by_cases hseen : a ∈ seen
    · unfold serializeRef at hhd
      rw [if_pos hseen] at hhd
      cases hhd
    · rcases childRefs_mem hmem with ⟨fields, rfl, hmem2⟩ | ⟨elems, rfl, hmem2⟩
      · rw [serializeRef_obj f seen hseen hget] at hhd
        cases hc : serializeList store f (a :: seen) (fields.map Prod.snd) with
        | error e => rw [hc] at hhd; simp at hhd
        | ok parts =>
          exact serializeList_mem_ok store (fields.map Prod.snd) f (a :: seen)
            parts hc (JSVal.ref b) hmem2
      · rw [serializeRef_arr f seen hseen hget] at hhd
        cases hc : serializeList store f (a :: seen) elems with
        | error e => rw [hc] at hhd; simp at hhd
        | ok parts =>
          exact serializeList_mem_ok store elems f (a :: seen)
            parts hc (JSVal.ref b) hmem2

/-- Along a containment chain from a to c, a successful serialization of
a forces a successful serialization of c under a seen set that has grown
to contain a. -/
theorem serialize_chain {store : List JNode} {a c : Nat}
    (hchain : StepChain store a c) :
    ∀ f seen out, serializeList store f seen [JSVal.ref a] = Except.ok out →
      ∃ g seen2 s, serializeList store g seen2 [JSVal.ref c] = Except.ok [s] ∧
        a ∈ seen2 ∧ seen ⊆ seen2 := by
  induction hchain with
  | @single a b hstep =>
    intro f seen out h
    obtain ⟨g, s, hs⟩ := serialize_step_ok h hstep
    exact ⟨g, a :: seen, s, hs, List.mem_cons_self a seen, List.subset_cons_self a seen⟩
  | @cons a b c hstep hchain ih =>
    intro f seen out h
    obtain ⟨g, s, hs⟩ := serialize_step_ok h hstep
    obtain ⟨g2, seen2, s2, hs2, hb, hsub⟩ := ih g (a :: seen) [s] hs
    exact ⟨g2, seen2, s2, hs2, hsub (List.mem_cons_self a seen),
      fun x hx => hsub (List.mem_cons_of_mem a hx)⟩

/-- Serializing a reference already on the current path always fails. -/
theorem serialize_revisit {store : List JNode} {a f : Nat}
    {seen : List Nat} (hseen : a ∈ seen) (rest : List JSVal)
    (out : List String) :
    serializeList store f seen (JSVal.ref a :: rest) ≠ Except.ok out := by
  intro h
  cases f with
  | zero => simp [serializeList] at h
  | succ f =>
    rw [serializeList_ref_cons] at h
    obtain ⟨s, ss, hhd, htl, hout⟩ := combineHead_ok h
    unfold serializeRef at hhd
    rw [if_pos hseen] at hhd
    cases hhd

/-- For every self-referential store node, serialization fails at every
amount of fuel: the failure the Normalizer has to catch. -/
theorem serialize_selfref_error (store : List JNode) (a : Nat)
    (h : SelfRef store a) (fuel : Nat) :
    serializeVal store fuel (JSVal.ref a) = Except.error () := by
  cases hs : serializeList store fuel [] [JSVal.ref a] with
  | error e => simp [serializeVal, hs]
  | ok out =>
    exfalso
    obtain ⟨g, seen2, s, hs2, ha, _⟩ := serialize_chain h fuel [] out hs
    exact serialize_revisit ha [] [s] hs2

/-- C4: for every self-referential container, one that directly or
transitively contains itself, the serialization failure is caught inside
the Normalizer, which returns an error value whose message is the one
fixed sentinel string for circular structures; consequently goSync of a
thunk throwing that container yields that error in the error slot. -/
theorem normalizeError_circular (store : List JNode) (a : Nat)
    (h : SelfRef store a) :
    normalizeError store (JSVal.ref a) = JSVal.errV "Error" circularSentinel [] ∧
    isErrorVal (normalizeError store (JSVal.ref a)) = true ∧
    goSync store (fun _ => Except.error (JSVal.ref a)) =
      (JSVal.nullV, JSVal.errV "Error" circularSentinel []) := by
  have hser := serialize_selfref_error store a h (fuelFor store)
  refine ⟨?_, ?_, ?_⟩
  · simp [normalizeError, hser]
  · exact normalizeError_is_error store (JSVal.ref a)
  · simp [goSync, normalizeError, hser]

/-- Witness for C4 at the concrete cyclic object from the docs: an object
whose self field refers back to itself. -/
theorem normalizeError_circular_witness :
    normalizeError [JNode.jobj [("name", JSVal.strV "test"), ("self", JSVal.ref 0)]]
      (JSVal.ref 0) = JSVal.errV "Error" circularSentinel [] :=
  (normalizeError_circular
    [JNode.jobj [("name", JSVal.strV "test"), ("self", JSVal.ref 0)]] 0
    (StepChain.single (by decide))).1
